import Mathlib

/-!
Verification of the hook-event notification pipeline of the
claude-notifications-go repository, as a shallow embedding in Lean 4.

Modelling conventions, shared by every definition below:

* Go strings that are only compared for equality (message types, tool
  names, status tags, hook-event names) are Lean `String`s.
* Go strings that are manipulated character-wise by the summarizer are
  `List Char` (`Str` below); Go's byte indices are abstracted as character
  indices, which agrees with the source on ASCII data.
* RFC-3339 timestamp strings are abstracted to `Option Int` (epoch
  seconds): `none` stands for an empty or unparseable timestamp string and
  `some t` for a string that `time.Parse` accepts and maps to time `t`.
  Every consumer of a timestamp in the source first parses it and branches
  on the error, so this quotient is faithful: `time.After` becomes `<` on
  `Int`, `time.Before` becomes `>` and `time.Sub` becomes subtraction.
* The `map[string]interface{}` tool input is abstracted to the two fields
  the source ever reads: `input["plan"]` (a string) and
  `input.questions[0].question` (a string); `none` stands for a missing
  key or a value of the wrong dynamic type.
-/

/-- Character-list strings used for the summarizer's text manipulation. -/
abbrev Str := List Char

/-- Converts a Lean string literal to the character-list representation. -/
def str (s : String) : Str := s.data

/-! ## Data model (src/pkg/jsonl/jsonl.go) -/

/-- Abstraction of the `input map[string]interface{}` of a `tool_use`
content block, restricted to the two dynamic paths the source reads. -/
structure ToolInput where
  plan : Option Str := none
  question0 : Option Str := none
  deriving DecidableEq, Repr

/-- `Content` of jsonl.go: one content block of a transcript message. -/
structure Content where
  type : String := ""
  name : String := ""
  text : Str := []
  input : ToolInput := {}
  deriving DecidableEq, Repr

/-- `Message` of jsonl.go: one decoded transcript record.  `parentUuid`
and `message.role` are carried by the Go struct but never read by the
pipeline; `timestamp` follows the `Option Int` timestamp abstraction. -/
structure Message where
  type : String := ""
  timestamp : Option Int := none
  content : List Content := []
  deriving DecidableEq, Repr

/-- `ToolUse` of jsonl.go: a tool use together with the index of the
record it occurs in.  The position is `Int` like the Go `int`, because
`FindToolPosition` uses `-1` as its not-found sentinel. -/
structure ToolUse where
  position : Int
  name : String
  deriving DecidableEq, Repr

/-! ## Parser (jsonl.Parse)

`Parse` reads newline-terminated records through a `bufio.Scanner` whose
buffer is capped at `1024*1024` bytes per line, skips empty lines and
lines that fail to `json.Unmarshal`, and returns the scanner's error if
scanning stops early.  A raw input line is abstracted to its byte length
plus the result of attempting to decode it (`none` = malformed JSON). -/

/-- One raw line of the transcript file: its length in bytes and the
outcome of `json.Unmarshal` on it. -/
structure RawLine where
  size : Nat
  decoded : Option Message
  deriving DecidableEq, Repr

/-- The `scanner.Buffer(buf, 1024*1024)` cap of jsonl.Parse. -/
def maxTokenSize : Nat := 1024 * 1024

/-- `Parse` of jsonl.go over the abstracted lines.  A line longer than the
scanner cap makes `Scan` stop with `bufio.ErrTooLong`, and Parse then
returns `nil, err` — discarding every record — which is modelled as
`none`.  Otherwise empty lines and undecodable lines are skipped and the
decoded records are returned in file order. -/
def Parse : List RawLine → Option (List Message)
  | [] => some []
  | l :: ls =>
    if l.size > maxTokenSize then none
    else
      match Parse ls with
      | none => none
      | some ms =>
        if l.size = 0 then some ms
        else
          match l.decoded with
          | none => some ms
          | some m => some (m :: ms)

/-- The result the spec sentence ascribes to `parse`: exactly the
successfully decoded records in file order, with no error possible.
Written from the claim's words, for comparison with `Parse`. -/
def specParseResult (lines : List RawLine) : List Message :=
  lines.filterMap (fun l => if l.size = 0 then none else l.decoded)

/-! ## Pure queries over the decoded sequence (jsonl.go) -/

/-- `filterAssistantMessages` of jsonl.go. -/
def filterAssistantMessages (messages : List Message) : List Message :=
  messages.filter (fun m => m.type == "assistant")

/-- `FilterMessagesAfterTimestamp` of jsonl.go: assistant records whose
timestamp parses and is strictly after the cutoff; with an empty or
unparseable cutoff (`none`), all assistant records. -/
def FilterMessagesAfterTimestamp (messages : List Message) (afterTimestamp : Option Int) :
    List Message :=
  match afterTimestamp with
  | none => filterAssistantMessages messages
  | some t =>
    messages.filter (fun m =>
      m.type == "assistant" &&
      match m.timestamp with
      | none => false
      | some mt => decide (t < mt))

/-- The user-text test of `GetLastUserTimestamp`: a `user` record whose
first content block has type `text`. -/
def isUserTextMessage (m : Message) : Bool :=
  m.type == "user" &&
  match m.content with
  | [] => false
  | c :: _ => c.type == "text"

/-- The downward loop body of `GetLastUserTimestamp`, over the reversed
list (the source iterates `i` from `len-1` down to `0`). -/
def getLastUserTimestampGo : List Message → Option Int
  | [] => none
  | m :: rest => if isUserTextMessage m then m.timestamp else getLastUserTimestampGo rest

/-- `GetLastUserTimestamp` of jsonl.go: timestamp of the most recent user
record whose first content block has type `text`.  Returning the empty
string in Go corresponds to returning `none` here. -/
def GetLastUserTimestamp (messages : List Message) : Option Int :=
  getLastUserTimestampGo messages.reverse

/-- `GetLastAssistantTimestamp` of jsonl.go. -/
def getLastAssistantTimestampGo : List Message → Option Int
  | [] => none
  | m :: rest => if m.type == "assistant" then m.timestamp else getLastAssistantTimestampGo rest

/-- `GetLastAssistantTimestamp` of jsonl.go: timestamp of the most recent
assistant record. -/
def GetLastAssistantTimestamp (messages : List Message) : Option Int :=
  getLastAssistantTimestampGo messages.reverse

/-- `ExtractTools` of jsonl.go: flattens `tool_use` content blocks into
`ToolUse(position, name)` preserving order, where position is the record
index. -/
def ExtractTools (messages : List Message) : List ToolUse :=
  (messages.enum.map (fun p =>
    p.2.content.filterMap (fun c =>
      if c.type == "tool_use" then some ⟨Int.ofNat p.1, c.name⟩ else none))).flatten

/-- `GetLastTool` of jsonl.go: name of the last tool used, `""` if none. -/
def GetLastTool (tools : List ToolUse) : String :=
  match tools.getLast? with
  | none => ""
  | some t => t.name

/-- `CountToolsAfterPosition` of jsonl.go. -/
def CountToolsAfterPosition (tools : List ToolUse) (position : Int) : Nat :=
  (tools.filter (fun t => decide (position < t.position))).length

/-- `FindToolPosition` of jsonl.go: position of the last occurrence of the
named tool, `-1` if absent. -/
def FindToolPosition (tools : List ToolUse) (name : String) : Int :=
  tools.foldl (fun acc t => if t.name == name then t.position else acc) (-1)

/-- `GetLastAssistantMessages` of jsonl.go: the trailing `count` assistant
records. -/
def GetLastAssistantMessages (messages : List Message) (count : Nat) : List Message :=
  let assistantMessages := filterAssistantMessages messages
  if assistantMessages.length ≤ count then assistantMessages
  else assistantMessages.drop (assistantMessages.length - count)

/-- `ExtractTextFromMessages` of jsonl.go: all non-empty `text` blocks. -/
def ExtractTextFromMessages (messages : List Message) : List Str :=
  (messages.map (fun m =>
    m.content.filterMap (fun c =>
      if c.type == "text" && !(c.text.isEmpty) then some c.text else none))).flatten

/-- `FindLastToolUse` of jsonl.go: the content block of the most recent
`tool_use` with the given name inside assistant records. -/
def FindLastToolUse (messages : List Message) (toolName : String) : Option Content :=
  messages.foldl (fun acc m =>
    if m.type == "assistant" then
      m.content.foldl (fun acc2 c =>
        if c.type == "tool_use" && c.name == toolName then some c else acc2) acc
    else acc) none

/-- `ExtractToolInput` of jsonl.go: input of the most recent named tool
use; the empty input when the tool is absent. -/
def ExtractToolInput (messages : List Message) (toolName : String) : ToolInput :=
  match FindLastToolUse messages toolName with
  | none => {}
  | some c => c.input

/-! ## Classifier (src/internal/analyzer/analyzer.go) -/

/-- `Status` of analyzer.go is `type Status string`. -/
abbrev Status := String

def StatusTaskComplete : Status := "task_complete"
def StatusReviewComplete : Status := "review_complete"
def StatusQuestion : Status := "question"
def StatusPlanReady : Status := "plan_ready"
def StatusUnknown : Status := "unknown"

/-- The complete list of `Status` constants declared by the `const` block
of analyzer.go (lines 19-25). -/
def statusValues : List Status :=
  [StatusTaskComplete, StatusReviewComplete, StatusQuestion, StatusPlanReady, StatusUnknown]

/-- `ActiveTools` of analyzer.go. -/
def ActiveTools : List String :=
  ["Write", "Edit", "Bash", "NotebookEdit", "SlashCommand", "KillShell"]

/-- `contains` of analyzer.go. -/
def containsStr (slice : List String) (s : String) : Bool :=
  slice.any (fun x => x == s)

/-- `AnalyzeTranscript` of analyzer.go, after `jsonl.ParseFile` (file IO
and the parse step are abstracted away: the function takes the decoded
record sequence). -/
def AnalyzeTranscript (messages : List Message) : Status :=
  let userTS := GetLastUserTimestamp messages
  let filteredMessages := FilterMessagesAfterTimestamp messages userTS
  if filteredMessages.length = 0 then StatusUnknown
  else
    let recentMessages :=
      if filteredMessages.length > 15 then
        filteredMessages.drop (filteredMessages.length - 15)
      else filteredMessages
    let tools := ExtractTools recentMessages
    if tools.length > 0 then
      let lastTool := GetLastTool tools
      if lastTool == "ExitPlanMode" then StatusPlanReady
      else if lastTool == "AskUserQuestion" then StatusQuestion
      else
        let exitPlanPos := FindToolPosition tools "ExitPlanMode"
        if exitPlanPos ≥ 0 ∧ CountToolsAfterPosition tools exitPlanPos > 0 then
          StatusTaskComplete
        else if containsStr ActiveTools lastTool then StatusTaskComplete
        else StatusTaskComplete
    else StatusUnknown

/-- `GetStatusForPreToolUse` of analyzer.go. -/
def GetStatusForPreToolUse (toolName : String) : Status :=
  if toolName == "ExitPlanMode" then StatusPlanReady
  else if toolName == "AskUserQuestion" then StatusQuestion
  else StatusUnknown

example : GetStatusForPreToolUse "ExitPlanMode" = StatusPlanReady := by decide

example :
    AnalyzeTranscript
      [{ type := "user", timestamp := some 10, content := [{ type := "text", text := str "go" }] },
       { type := "assistant", timestamp := some 11,
         content := [{ type := "tool_use", name := "Write" }] }] = StatusTaskComplete := by
  decide

example :
    AnalyzeTranscript
      [{ type := "assistant", timestamp := some 11,
         content := [{ type := "tool_use", name := "ExitPlanMode" }] }] = StatusPlanReady := by
  decide

/-! ## Claim C1 — classifier window and tool decisions -/

/-- The claim's window: assistant records strictly after the last user
text timestamp (names the subterms of `AnalyzeTranscript`). -/
def classifierWindow (messages : List Message) : List Message :=
  FilterMessagesAfterTimestamp messages (GetLastUserTimestamp messages)

/-- The claim's trailing-15 locality bound applied to the window. -/
def classifierRecent (messages : List Message) : List Message :=
  let w := classifierWindow messages
  if w.length > 15 then w.drop (w.length - 15) else w

/-- The claim's extracted tool list. -/
def classifierTools (messages : List Message) : List ToolUse :=
  ExtractTools (classifierRecent messages)

theorem extractTools_nil : ExtractTools [] = [] := rfl

/-- Claim C1: for every parsed transcript, the classifier builds its
window as the assistant records strictly after the last user text
timestamp, keeps only the trailing 15 when more than 15 remain, returns
unknown on an empty window or empty tool list, plan_ready when the last
tool is ExitPlanMode, question when the last tool is AskUserQuestion,
task_complete when ExitPlanMode appears with a later tool, and
task_complete for any other non-empty tool trace. -/
theorem ite_all_taskComplete (a b : Prop) [Decidable a] [Decidable b] :
    (if a then StatusTaskComplete else if b then StatusTaskComplete else StatusTaskComplete) =
      StatusTaskComplete := by
  split
  · rfl
  · split <;> rfl

theorem analyzeTranscript_characterization (messages : List Message) :
    AnalyzeTranscript messages =
      (if (classifierTools messages).length > 0 then
        (if GetLastTool (classifierTools messages) == "ExitPlanMode" then StatusPlanReady
         else if GetLastTool (classifierTools messages) == "AskUserQuestion" then StatusQuestion
         else StatusTaskComplete)
       else StatusUnknown) := by
  simp only [classifierTools, classifierRecent, classifierWindow, AnalyzeTranscript,
    ite_all_taskComplete]
  by_cases hlen : (FilterMessagesAfterTimestamp messages (GetLastUserTimestamp messages)).length = 0
  · have hnil := List.length_eq_zero.mp hlen
    simp [hlen, hnil, extractTools_nil]
  · rw [if_neg hlen]

theorem claim1_classifier_decisions (messages : List Message) :
    (classifierWindow messages = [] → AnalyzeTranscript messages = StatusUnknown) ∧
    (classifierTools messages = [] → AnalyzeTranscript messages = StatusUnknown) ∧
    (classifierTools messages ≠ [] →
      GetLastTool (classifierTools messages) = "ExitPlanMode" →
      AnalyzeTranscript messages = StatusPlanReady) ∧
    (classifierTools messages ≠ [] →
      GetLastTool (classifierTools messages) ≠ "ExitPlanMode" →
      GetLastTool (classifierTools messages) = "AskUserQuestion" →
      AnalyzeTranscript messages = StatusQuestion) ∧
    (classifierTools messages ≠ [] →
      GetLastTool (classifierTools messages) ≠ "ExitPlanMode" →
      GetLastTool (classifierTools messages) ≠ "AskUserQuestion" →
      0 ≤ FindToolPosition (classifierTools messages) "ExitPlanMode" →
      0 < CountToolsAfterPosition (classifierTools messages)
            (FindToolPosition (classifierTools messages) "ExitPlanMode") →
      AnalyzeTranscript messages = StatusTaskComplete) ∧
    (classifierTools messages ≠ [] →
      GetLastTool (classifierTools messages) ≠ "ExitPlanMode" →
      GetLastTool (classifierTools messages) ≠ "AskUserQuestion" →
      AnalyzeTranscript messages = StatusTaskComplete) := by
  rw [analyzeTranscript_characterization messages]
  refine ⟨?_, ?_, ?_, ?_, ?_, ?_⟩
  · intro hw
    have : classifierTools messages = [] := by
      simp [classifierTools, classifierRecent, hw, extractTools_nil]
    simp [this]
  · intro ht; simp [ht]
  · intro ht hl
    simp [List.length_pos.mpr ht, hl]
  · intro ht hne hl
    simp [List.length_pos.mpr ht, hne, hl]
  · intro ht hne hnq _ _
    simp [List.length_pos.mpr ht, hne, hnq]
  · intro ht hne hnq
    simp [List.length_pos.mpr ht, hne, hnq]

/-- Witness for C1 at a concrete transcript: the question branch. -/
theorem claim1_classifier_decisions_witness :
    AnalyzeTranscript
      [{ type := "assistant", timestamp := some 3,
         content := [{ type := "tool_use", name := "AskUserQuestion" }] }] = StatusQuestion := by
  refine ((claim1_classifier_decisions _).2.2.2.1) ?_ ?_ ?_ <;> decide

/-! ## Claim C2 — the session-limit status

The spec's `Status` enumeration has six tags including
`session_limit_reached`, and the classifier is specified to return
`session_limit_reached` when the most recent assistant text contains the
literal `Session limit reached`.  The `const` block of analyzer.go
declares only the five tags collected in `statusValues`, and
`AnalyzeTranscript` never inspects assistant text; the repository's own
test suite (summary_test.go) references `analyzer.StatusSessionLimitReached`
and its default config ships a `session_limit_reached` status entry, so
the analyzer source contradicts the repository's tests. -/

/-- A transcript whose most recent assistant text contains the literal
`Session limit reached` and whose current turn uses no tools. -/
def sessionLimitTranscript : List Message :=
  [{ type := "user", timestamp := some 100,
     content := [{ type := "text", text := str "Continue working" }] },
   { type := "assistant", timestamp := some 160,
     content := [{ type := "text",
                   text := str "Session limit reached. Please start a new conversation." }] }]

/-- Claim C2 (code bug): the declared `Status` constants are exactly the
five of analyzer.go — `session_limit_reached` is not among them — and on
a transcript whose most recent assistant text contains `Session limit
reached` the classifier returns `unknown`, not `session_limit_reached`. -/
theorem claim2_session_limit_divergence :
    AnalyzeTranscript sessionLimitTranscript = StatusUnknown ∧
    statusValues =
      [StatusTaskComplete, StatusReviewComplete, StatusQuestion, StatusPlanReady,
       StatusUnknown] ∧
    ("session_limit_reached" ∉ statusValues) := by
  refine ⟨by decide, rfl, by decide⟩

/-! ## Claim C7 — parser tolerance and the 1 MiB line bound -/

/-- A decodable record used by the parser counterexample. -/
def parsedDemoMessage : Message :=
  { type := "assistant", timestamp := some 7,
    content := [{ type := "text", text := str "ok" }] }

/-- Counterexample to C7: a line one byte over the 1 MiB scanner cap
makes `Parse` return the scanner's error (modelled `none`), discarding
the decodable record that follows it, while the claim predicts that the
oversized line is skipped and the decoded records are returned. -/
theorem claim7_counterexample :
    Parse [{ size := maxTokenSize + 1, decoded := none },
           { size := 20, decoded := some parsedDemoMessage }] = none ∧
    specParseResult [{ size := maxTokenSize + 1, decoded := none },
                     { size := 20, decoded := some parsedDemoMessage }] =
      [parsedDemoMessage] ∧
    Parse [{ size := maxTokenSize + 1, decoded := none },
           { size := 20, decoded := some parsedDemoMessage }] ≠
      some (specParseResult [{ size := maxTokenSize + 1, decoded := none },
                             { size := 20, decoded := some parsedDemoMessage }]) := by
  refine ⟨by decide, by decide, by decide⟩

/-- Claim C7 as amended: for every readable file all of whose lines fit
the 1 MiB scanner cap, lines that fail to decode are skipped without
aborting and the result is exactly the successfully decoded records in
file order; a line exceeding the cap instead aborts parsing with the
scanner's error, discarding all records. -/
theorem claim7_amended_parse (lines : List RawLine) :
    ((∀ l ∈ lines, l.size ≤ maxTokenSize) → Parse lines = some (specParseResult lines)) ∧
    ((∃ l ∈ lines, maxTokenSize < l.size) → Parse lines = none) := by
  induction lines with
  | nil =>
    refine ⟨fun _ => rfl, fun h => ?_⟩
    obtain ⟨l, hl, -⟩ := h
    exact absurd hl (List.not_mem_nil l)
  | cons l ls ih =>
    constructor
    · intro h
      have hl : l.size ≤ maxTokenSize := h l (List.mem_cons_self l ls)
      have hrest := ih.1 (fun x hx => h x (List.mem_cons_of_mem l hx))
      simp only [Parse, if_neg (by omega : ¬ l.size > maxTokenSize), hrest]
      by_cases hz : l.size = 0
      · simp [specParseResult, hz]
      · cases hd : l.decoded <;> simp [specParseResult, hz, hd]
    · intro h
      obtain ⟨x, hx, hxs⟩ := h
      rcases List.mem_cons.mp hx with hxl | hxls
      · subst hxl
        simp only [Parse, if_pos (by omega : x.size > maxTokenSize)]
      · have hrest := ih.2 ⟨x, hxls, hxs⟩
        simp only [Parse, hrest]
        split <;> rfl

/-- Witness for the amended C7 at a concrete file: a malformed line
within the cap is skipped and the decodable record survives. -/
theorem claim7_amended_parse_witness :
    Parse [{ size := 20, decoded := some parsedDemoMessage },
           { size := 13, decoded := none }] = some [parsedDemoMessage] := by
  have h := (claim7_amended_parse
    [{ size := 20, decoded := some parsedDemoMessage },
     { size := 13, decoded := none }]).1 (by decide)
  rw [h]
  decide

/-! ## Claim C8 — the last user text timestamp -/

/-- Claim C8: `GetLastUserTimestamp` returns the timestamp of the most
recent `user` record whose first content block has type `text` (the
parsed form of a human text message; a record whose `message.content` is
a primitive JSON string never survives `json.Unmarshal` into the
`[]Content` field, so no parsed record carries that shape), and a user
record whose content blocks are all `tool_result` never qualifies. -/
theorem claim8_last_user_timestamp (messages : List Message) :
    GetLastUserTimestamp messages =
      (messages.reverse.find? isUserTextMessage).bind (fun m => m.timestamp) ∧
    (∀ m : Message, m.type = "user" → m.content ≠ [] →
      (∀ c ∈ m.content, c.type = "tool_result") → isUserTextMessage m = false) := by
  constructor
  · show getLastUserTimestampGo messages.reverse = _
    induction messages.reverse with
    | nil => rfl
    | cons m rest ih =>
      by_cases hm : isUserTextMessage m
      · simp [getLastUserTimestampGo, List.find?, hm]
      · simp only [getLastUserTimestampGo, List.find?, if_neg hm,
          Bool.not_eq_true] at *
        rw [hm]
        exact ih
  · intro m hu hne hall
    unfold isUserTextMessage
    cases hc : m.content with
    | nil => exact absurd hc hne
    | cons c cs =>
      have : c.type = "tool_result" := hall c (by rw [hc]; exact List.mem_cons_self c cs)
      simp [this]

/-- Witness for C8 at a concrete record list: a trailing tool-result user
record does not qualify, so the earlier user text record's timestamp is
returned. -/
theorem claim8_last_user_timestamp_witness :
    isUserTextMessage
      { type := "user", timestamp := some 9,
        content := [{ type := "tool_result" }] } = false := by
  refine (claim8_last_user_timestamp []).2 _ rfl (by decide) ?_
  intro c hc
  simp only [List.mem_singleton] at hc
  rw [hc]

/-! ## Dedup manager (src/internal/dedup/dedup.go, src/internal/platform/platform.go)

The lock file is modelled as `Option Int`: `none` when the file does not
exist, `some m` when it exists with modification time `m` (epoch
seconds).  `os.Stat` failing on an existing file yields `FileMTime = 0`
in the source, matching the `m = 0` sentinel here. -/

/-- `FileMTime` of platform.go: the modification time, `0` when `os.Stat`
fails (in particular when the file does not exist). -/
def FileMTime (fs : Option Int) : Int :=
  match fs with
  | none => 0
  | some m => m

/-- `FileAge` of platform.go: `-1` when the mtime is unavailable,
otherwise `now - mtime`. -/
def FileAge (now : Int) (fs : Option Int) : Int :=
  if FileMTime fs = 0 then -1 else now - FileMTime fs

/-- `AtomicCreateFile` of platform.go (`O_CREATE|O_EXCL`): returns
whether the file was created, together with the resulting file state; a
fresh file carries the creation time as its mtime. -/
def AtomicCreateFile (now : Int) (fs : Option Int) : Bool × Option Int :=
  match fs with
  | none => (true, some now)
  | some m => (false, some m)

/-- `AcquireLock` of dedup.go.  `interfere` is the lock-file state the
retry creation observes after the stale lock has been removed: `none` in
an interference-free run, `some m2` when a sibling process re-created the
lock between the `os.Remove` and the second `AtomicCreateFile` (the
source deliberately ignores the `os.Remove` error for the same reason).
Returns the acquired flag and the final file state. -/
def AcquireLock (now : Int) (fs : Option Int) (interfere : Option Int) : Bool × Option Int :=
  match AtomicCreateFile now fs with
  | (true, fs1) => (true, fs1)
  | (false, fs1) =>
    let age := FileAge now fs1
    if 0 ≤ age ∧ age < 2 then (false, fs1)
    else AtomicCreateFile now interfere

/-- Claim C3: `AcquireLock` returns true when the exclusive creation
succeeds; returns false when the lock exists with age below 2 seconds;
and when the lock exists with age at least 2 seconds it removes the file,
retries the exclusive creation exactly once, and returns that retry's
outcome. -/
theorem claim3_acquire_lock (now m : Int) (interfere : Option Int) :
    (AcquireLock now none interfere = (true, some now)) ∧
    (0 ≤ now - m → now - m < 2 → m ≠ 0 →
      AcquireLock now (some m) interfere = (false, some m)) ∧
    (2 ≤ now - m → m ≠ 0 →
      AcquireLock now (some m) interfere = AtomicCreateFile now interfere) := by
  refine ⟨rfl, ?_, ?_⟩
  · intro h0 h2 hm
    show (let age := FileAge now (some m);
          if 0 ≤ age ∧ age < 2 then ((false, some m) : Bool × Option Int)
          else AtomicCreateFile now interfere) = (false, some m)
    simp only [FileAge, FileMTime]
    rw [if_neg hm, if_pos ⟨h0, h2⟩]
  · intro h2 hm
    show (let age := FileAge now (some m);
          if 0 ≤ age ∧ age < 2 then ((false, some m) : Bool × Option Int)
          else AtomicCreateFile now interfere) = AtomicCreateFile now interfere
    simp only [FileAge, FileMTime]
    rw [if_neg hm, if_neg (by omega : ¬ (0 ≤ now - m ∧ now - m < 2))]

/-- Witness for C3 at concrete times: a 5-second-old lock is stale, the
retry succeeds in an interference-free run; a 1-second-old lock refuses. -/
theorem claim3_acquire_lock_witness :
    AcquireLock 10 (some 5) none = (true, some 10) ∧
    AcquireLock 10 (some 9) none = (false, some 9) := by
  constructor
  · exact (claim3_acquire_lock 10 5 none).2.2 (by decide) (by decide)
  · exact (claim3_acquire_lock 10 9 none).2.1 (by decide) (by decide) (by decide)

/-! ## Retryer (webhook retry.go, src/unnamed/part_007)

The HTTP call under retry is abstracted to a function from the attempt
number to its outcome; `none` is success, `some e` a failure.  Context
cancellation and the backoff sleeps (whose durations involve
floating-point jitter) do not affect the attempt count or the returned
error, and are omitted: the context is never cancelled in this model. -/

/-- `HTTPError` of retry.go. -/
structure HTTPError where
  statusCode : Nat
  status : Str := []
  body : Str := []
  deriving DecidableEq, Repr

/-- A failure outcome of one attempt: an HTTP error response, or a
non-HTTP (network/timeout) error. -/
inductive WebhookFailure where
  | http (e : HTTPError)
  | network
  deriving DecidableEq, Repr

/-- `HTTPError.Error` of retry.go: the error string, with the body
truncated to 200 characters. -/
def HTTPError.errorText (e : HTTPError) : Str :=
  if e.body.isEmpty then
    str "HTTP " ++ (Nat.repr e.statusCode).data ++ str ": " ++ e.status
  else
    let body := if e.body.length > 200 then e.body.take 200 ++ str "..." else e.body
    str "HTTP " ++ (Nat.repr e.statusCode).data ++ str ": " ++ e.status ++ str " - " ++ body

/-- `RetryConfig` of retry.go.  The backoff durations are carried in
nanoseconds like Go's `time.Duration` but unused by the model. -/
structure RetryConfig where
  enabled : Bool
  maxAttempts : Nat
  initialBackoff : Int := 1000000000
  maxBackoff : Int := 10000000000
  deriving DecidableEq, Repr

/-- `Retryer.isRetryable` of retry.go: 4xx is permanent except 429; 5xx
and everything non-HTTP is retryable. -/
def isRetryable (e : WebhookFailure) : Bool :=
  match e with
  | .http httpErr =>
    if 400 ≤ httpErr.statusCode ∧ httpErr.statusCode < 500 then
      httpErr.statusCode == 429
    else if 500 ≤ httpErr.statusCode then true
    else true
  | .network => true

/-- The final outcome of `Retryer.Do`. -/
inductive DoOutcome where
  | success
  | permanent (e : WebhookFailure)
  | exhausted (maxAttempts : Nat) (lastErr : Option WebhookFailure)
  | rawFailure (e : WebhookFailure)
  deriving DecidableEq, Repr

/-- The attempt loop of `Retryer.Do` (attempts `attempt`, `attempt+1`,
... with `fuel` iterations left).  Returns the number of invocations of
`fn` together with the outcome. -/
def doAttempts (maxAttempts : Nat) (fn : Nat → Option WebhookFailure) :
    Nat → Nat → Nat × DoOutcome
  | _, 0 => (0, .exhausted maxAttempts none)
  | attempt, fuel + 1 =>
    match fn attempt with
    | none => (1, .success)
    | some e =>
      if !isRetryable e then (1, .permanent e)
      else if attempt = maxAttempts then (1, .exhausted maxAttempts (some e))
      else
        let rest := doAttempts maxAttempts fn (attempt + 1) fuel
        (rest.1 + 1, rest.2)

/-- `Retryer.Do` of retry.go: when retry is disabled the function runs
exactly once and its error is returned unwrapped; otherwise the attempt
loop runs from attempt 1 up to `maxAttempts`. -/
def RetryerDo (config : RetryConfig) (fn : Nat → Option WebhookFailure) : Nat × DoOutcome :=
  if !config.enabled then
    match fn 1 with
    | none => (1, .success)
    | some e => (1, .rawFailure e)
  else
    doAttempts config.maxAttempts fn 1 config.maxAttempts

/-- The final error text of `Retryer.Do`, mirroring the `fmt.Errorf`
format strings of the source. -/
def doOutcomeText (o : DoOutcome) : Option Str :=
  match o with
  | .success => none
  | .permanent e =>
    some (str "permanent error (non-retryable): " ++
      (match e with | .http he => he.errorText | .network => str "network error"))
  | .exhausted n e =>
    some (str "max retry attempts (" ++ (Nat.repr n).data ++ str ") exhausted" ++
      (match e with
       | some (.http he) => str ": " ++ he.errorText
       | some .network => str ": network error"
       | none => []))
  | .rawFailure e =>
    some (match e with | .http he => he.errorText | .network => str "network error")

/-- A function that always fails with HTTP 503. -/
def alwaysFail503 : Nat → Option WebhookFailure :=
  fun _ => some (.http { statusCode := 503, status := str "503 Service Unavailable" })

/-- A function that always fails with HTTP 400. -/
def alwaysFail400 : Nat → Option WebhookFailure :=
  fun _ => some (.http { statusCode := 400, status := str "400 Bad Request" })

/-- Claim C4: with `max_attempts = 3`, a function always failing with
HTTP 503 is invoked exactly 3 times and the final error states that the
maximum attempts were exhausted; a function always failing with HTTP 400
is invoked exactly once and the error is permanent (non-retried). -/
theorem claim4_retryer_attempts :
    (RetryerDo { enabled := true, maxAttempts := 3 } alwaysFail503 =
      (3, .exhausted 3 (some (.http { statusCode := 503,
                                      status := str "503 Service Unavailable" })))) ∧
    (doOutcomeText (RetryerDo { enabled := true, maxAttempts := 3 } alwaysFail503).2 =
      some (str "max retry attempts (3) exhausted: HTTP 503: 503 Service Unavailable")) ∧
    (RetryerDo { enabled := true, maxAttempts := 3 } alwaysFail400 =
      (1, .permanent (.http { statusCode := 400, status := str "400 Bad Request" }))) ∧
    (doOutcomeText (RetryerDo { enabled := true, maxAttempts := 3 } alwaysFail400).2 =
      some (str "permanent error (non-retryable): HTTP 400: 400 Bad Request")) := by
  refine ⟨by decide, by decide, by decide, by decide⟩

/-! ## Circuit breaker (webhook circuitbreaker.go, inside src/internal/webhook/webhook.go)

Wall-clock instants are `Int` epoch seconds; `time.Since(t) ≥ timeout`
becomes `now - t ≥ timeout`.  The wrapped function is abstracted to the
boolean success of its single invocation. -/

/-- `CircuitBreakerState` of circuitbreaker.go.  `opened` stands for the
Go `StateOpen` (`open` is a Lean keyword). -/
inductive CBState where
  | closed
  | opened
  | halfOpen
  deriving DecidableEq, Repr

/-- `CircuitBreaker` of circuitbreaker.go (the mutex is subsumed by the
sequential model). -/
structure CircuitBreaker where
  failureThreshold : Nat
  successThreshold : Nat
  timeout : Int
  state : CBState
  failureCount : Nat
  successCount : Nat
  lastStateChange : Int
  deriving DecidableEq, Repr

/-- `NewCircuitBreaker` of circuitbreaker.go. -/
def NewCircuitBreaker (failureThreshold successThreshold : Nat) (timeout now : Int) :
    CircuitBreaker :=
  { failureThreshold := failureThreshold, successThreshold := successThreshold,
    timeout := timeout, state := .closed, failureCount := 0, successCount := 0,
    lastStateChange := now }

/-- `getState` of circuitbreaker.go: the lazy open-to-half-open
transition once the timeout has elapsed. -/
def getState (now : Int) (cb : CircuitBreaker) : CBState × CircuitBreaker :=
  if cb.state = .opened ∧ now - cb.lastStateChange ≥ cb.timeout then
    (.halfOpen,
     { cb with state := .halfOpen, successCount := 0, failureCount := 0,
               lastStateChange := now })
  else (cb.state, cb)

/-- `recordSuccess` of circuitbreaker.go. -/
def recordSuccess (now : Int) (cb : CircuitBreaker) : CircuitBreaker :=
  match cb.state with
  | .halfOpen =>
    if cb.successCount + 1 ≥ cb.successThreshold then
      { cb with state := .closed, failureCount := 0, successCount := 0,
                lastStateChange := now }
    else { cb with successCount := cb.successCount + 1 }
  | .closed => { cb with failureCount := 0 }
  | .opened => cb

/-- `recordFailure` of circuitbreaker.go. -/
def recordFailure (now : Int) (cb : CircuitBreaker) : CircuitBreaker :=
  match cb.state with
  | .halfOpen =>
    { cb with state := .opened, failureCount := 0, successCount := 0,
              lastStateChange := now }
  | .closed =>
    if cb.failureCount + 1 ≥ cb.failureThreshold then
      { cb with state := .opened, failureCount := 0, lastStateChange := now }
    else { cb with failureCount := cb.failureCount + 1 }
  | .opened => cb

/-- The result of one `Execute`: the wrapped function was not called
because the circuit was open, or it ran with the given success flag. -/
inductive ExecResult where
  | circuitOpen
  | ran (ok : Bool)
  deriving DecidableEq, Repr

/-- `Execute` of circuitbreaker.go: fail fast when the (lazily updated)
state is open; otherwise run the function and record its result. -/
def Execute (now : Int) (cb : CircuitBreaker) (fnSucceeds : Bool) :
    ExecResult × CircuitBreaker :=
  let stcb := getState now cb
  if stcb.1 = .opened then (.circuitOpen, stcb.2)
  else if fnSucceeds then (.ran true, recordSuccess now stcb.2)
  else (.ran false, recordFailure now stcb.2)

/-- `n` consecutive failing calls through the breaker. -/
def executeFailures (now : Int) : Nat → CircuitBreaker → CircuitBreaker
  | 0, cb => cb
  | n + 1, cb => executeFailures now n (Execute now cb false).2

/-- `n` consecutive succeeding calls through the breaker. -/
def executeSuccesses (now : Int) : Nat → CircuitBreaker → CircuitBreaker
  | 0, cb => cb
  | n + 1, cb => executeSuccesses now n (Execute now cb true).2

theorem execute_closed_failure (now : Int) (cb : CircuitBreaker) (h : cb.state = .closed) :
    (Execute now cb false).2 = recordFailure now cb := by
  simp [Execute, getState, h]

theorem execute_closed_success (now : Int) (cb : CircuitBreaker) (h : cb.state = .closed) :
    Execute now cb true = (.ran true, recordSuccess now cb) := by
  simp [Execute, getState, h]

theorem executeFailures_closed_reach (now : Int) :
    ∀ (k : Nat) (cb : CircuitBreaker), 1 ≤ k → cb.state = .closed →
      cb.failureCount + k = cb.failureThreshold →
      (executeFailures now k cb).state = .opened := by
  intro k
  induction k with
  | zero => intro cb h1 _ _; exact absurd h1 (by norm_num)
  | succ n ih =>
    intro cb h1 h2 h3
    simp only [executeFailures]
    rw [execute_closed_failure now cb h2]
    by_cases hn : n = 0
    · subst hn
      simp only [executeFailures]
      simp only [recordFailure, h2]
      rw [if_pos (by omega : cb.failureCount + 1 ≥ cb.failureThreshold)]
    · have hstay : recordFailure now cb = { cb with failureCount := cb.failureCount + 1 } := by
        simp only [recordFailure, h2]
        rw [if_neg (by omega : ¬ cb.failureCount + 1 ≥ cb.failureThreshold)]
      rw [hstay]
      exact ih _ (by omega) (by simp [h2]) (by simp; omega)

theorem execute_halfOpen_success (now : Int) (cb : CircuitBreaker) (h : cb.state = .halfOpen) :
    Execute now cb true = (.ran true, recordSuccess now cb) := by
  simp [Execute, getState, h]

theorem executeSuccesses_halfOpen_reach (now : Int) :
    ∀ (k : Nat) (cb : CircuitBreaker), 1 ≤ k → cb.state = .halfOpen →
      cb.successCount + k = cb.successThreshold →
      (executeSuccesses now k cb).state = .closed := by
  intro k
  induction k with
  | zero => intro cb h1 _ _; exact absurd h1 (by norm_num)
  | succ n ih =>
    intro cb h1 h2 h3
    simp only [executeSuccesses]
    rw [(execute_halfOpen_success now cb h2 ▸ rfl :
          (Execute now cb true).2 = recordSuccess now cb)]
    by_cases hn : n = 0
    · subst hn
      simp only [executeSuccesses]
      simp only [recordSuccess, h2]
      rw [if_pos (by omega : cb.successCount + 1 ≥ cb.successThreshold)]
    · have hstay : recordSuccess now cb = { cb with successCount := cb.successCount + 1 } := by
        simp only [recordSuccess, h2]
        rw [if_neg (by omega : ¬ cb.successCount + 1 ≥ cb.successThreshold)]
      rw [hstay]
      exact ih _ (by omega) (by simp [h2]) (by simp; omega)

/-- Claim C5: the circuit breaker's step relation has exactly the
specified transitions — `failure_threshold` consecutive failures take a
fresh closed breaker to open and any success in closed resets the
failure counter; the first `Execute` at or after the timeout takes an
open breaker to half-open (and runs the function); `success_threshold`
consecutive successes take a fresh half-open breaker to closed; a single
failure takes half-open back to open; and `Execute` on an open breaker
within the timeout returns the circuit-open result without running the
function and leaves the breaker unchanged. -/
theorem claim5_circuit_breaker_transitions (ft st : Nat) (tmo t0 now : Int)
    (cb : CircuitBreaker) (fnOk : Bool) :
    (1 ≤ ft →
      (executeFailures now ft (NewCircuitBreaker ft st tmo t0)).state = .opened) ∧
    (cb.state = .closed → ((Execute now cb true).2.failureCount = 0 ∧
      (Execute now cb true).2.state = .closed ∧ (Execute now cb true).1 = .ran true)) ∧
    (cb.state = .opened → now - cb.lastStateChange ≥ cb.timeout →
      ((getState now cb).1 = .halfOpen ∧ (getState now cb).2.state = .halfOpen ∧
       (Execute now cb fnOk).1 = .ran fnOk)) ∧
    (cb.state = .halfOpen → cb.successCount = 0 → 1 ≤ cb.successThreshold →
      (executeSuccesses now cb.successThreshold cb).state = .closed) ∧
    (cb.state = .halfOpen → (Execute now cb false).2.state = .opened) ∧
    (cb.state = .opened → now - cb.lastStateChange < cb.timeout →
      (Execute now cb fnOk) = (.circuitOpen, cb)) := by
  refine ⟨?_, ?_, ?_, ?_, ?_, ?_⟩
  · intro hft
    exact executeFailures_closed_reach now ft (NewCircuitBreaker ft st tmo t0) hft rfl
      (by simp [NewCircuitBreaker])
  · intro h
    rw [execute_closed_success now cb h]
    refine ⟨?_, ?_, rfl⟩ <;> simp [recordSuccess, h]
  · intro h htime
    have hg : getState now cb =
        (.halfOpen, { cb with state := .halfOpen, successCount := 0, failureCount := 0,
                              lastStateChange := now }) := by
      simp [getState, h, htime]
    refine ⟨by rw [hg], by rw [hg], ?_⟩
    simp only [Execute, hg]
    cases fnOk <;> simp
  · intro h hz hst
    exact executeSuccesses_halfOpen_reach now cb.successThreshold cb hst h (by omega)
  · intro h
    simp [Execute, getState, h, recordFailure]
  · intro h htime
    have hg : getState now cb = (cb.state, cb) := by
      simp only [getState]
      rw [if_neg (fun hx => absurd hx.2 (by omega))]
    simp [Execute, hg, h]

/-- Witness for C5 at concrete parameters: a fresh breaker with
`failure_threshold = 2` opens after two failures, and an open breaker
rejects within the timeout without running the function. -/
theorem claim5_circuit_breaker_transitions_witness :
    (executeFailures 50 2 (NewCircuitBreaker 2 1 30 50)).state = .opened ∧
    (Execute 60 { failureThreshold := 2, successThreshold := 1, timeout := 30,
                  state := .opened, failureCount := 0, successCount := 0,
                  lastStateChange := 50 } true) =
      (.circuitOpen, { failureThreshold := 2, successThreshold := 1, timeout := 30,
                       state := .opened, failureCount := 0, successCount := 0,
                       lastStateChange := 50 }) := by
  constructor
  · exact (claim5_circuit_breaker_transitions 2 1 30 50 50
      (NewCircuitBreaker 2 1 30 50) true).1 (by norm_num)
  · exact (claim5_circuit_breaker_transitions 2 1 30 50 60
      { failureThreshold := 2, successThreshold := 1, timeout := 30,
        state := .opened, failureCount := 0, successCount := 0,
        lastStateChange := 50 } true).2.2.2.2.2 rfl (by norm_num)

/-! ## Message synthesizer (src/internal/summary/summary.go)

Text is `List Char`; the Go byte indices of `truncateText`,
`extractFirstSentence` and `strings.LastIndex` become character indices
(exact on ASCII).  `strings.ToLower` is abstracted to ASCII lowering, and
the `^[\p{So}\p{Sk}]+\s*` emoji pattern to the symbol characters that
occur in the default status titles. -/

/-- The backquote character removed by `backtickPattern`. -/
def backquote : Char := Char.ofNat 96

/-- `unicode.IsSpace`, the class of the `\s` regex escape. -/
def isSpaceChar (c : Char) : Bool := c.isWhitespace

/-- `strings.TrimSpace`. -/
def trimSpace (l : Str) : Str :=
  ((l.dropWhile isSpaceChar).reverse.dropWhile isSpaceChar).reverse

/-- `strings.Split(s, "\n")`. -/
def splitLines : Str → List Str
  | [] => [[]]
  | c :: rest =>
    let r := splitLines rest
    if c = '\n' then [] :: r
    else (c :: r.headD []) :: r.tail

/-- `headerPattern.ReplaceAllString(line, "")` for `^#+\s*`. -/
def stripHeaderMark (line : Str) : Str :=
  match line with
  | '#' :: _ => (line.dropWhile (fun c => c = '#')).dropWhile isSpaceChar
  | _ => line

/-- `bulletPattern.ReplaceAllString(line, "")` for `^[-*•]\s*`. -/
def stripBulletMark (line : Str) : Str :=
  match line with
  | c :: rest =>
    if c = '-' ∨ c = '*' ∨ c = '•' then rest.dropWhile isSpaceChar else line
  | [] => []

/-- `backtickPattern.ReplaceAllString(line, "")`. -/
def removeBackticks (line : Str) : Str :=
  line.filter (fun c => c ≠ backquote)

/-- `multiSpacePattern.ReplaceAllString(result, " ")` for `\s+`. -/
def collapseWsAux : Str → Bool → Str
  | [], _ => []
  | c :: rest, prevSpace =>
    if isSpaceChar c then
      if prevSpace then collapseWsAux rest true
      else ' ' :: collapseWsAux rest true
    else c :: collapseWsAux rest false

def collapseWs (l : Str) : Str := collapseWsAux l false

/-- `CleanMarkdown` of summary.go. -/
def CleanMarkdown (text : Str) : Str :=
  let lines := splitLines text
  let cleaned := lines.filterMap (fun line =>
    let line := trimSpace line
    if line.isEmpty then none
    else
      let line := stripHeaderMark line
      let line := stripBulletMark line
      let line := removeBackticks line
      let line := trimSpace line
      if line.isEmpty then none else some line)
  trimSpace (collapseWs (List.intercalate (str " ") cleaned))

/-- `extractFirstSentence` of summary.go. -/
def extractFirstSentence (text : Str) : Str :=
  match text.findIdx? (fun c => c = '.' ∨ c = '!' ∨ c = '?') with
  | some i => trimSpace (text.take i)
  | none => if text.length > 100 then text.take 100 else text

/-- `strings.LastIndex(l, " ")` as an optional index (`none` for `-1`). -/
def lastIndexOfSpace : Str → Option Nat
  | [] => none
  | c :: rest =>
    match lastIndexOfSpace rest with
    | some i => some (i + 1)
    | none => if c = ' ' then some 0 else none

/-- `truncateText` of summary.go. -/
def truncateText (text : Str) (maxLen : Nat) : Str :=
  if text.length ≤ maxLen then text
  else
    let truncated := text.take (maxLen - 3)
    let truncated :=
      match lastIndexOfSpace truncated with
      | some lastSpace => if maxLen / 2 < lastSpace then truncated.take lastSpace else truncated
      | none => truncated
    truncated ++ str "..."

/-- The inner downward scan of `extractAskUserQuestion`: the most recent
assistant record holding an `AskUserQuestion` tool use whose input yields
a question string; an empty question string keeps scanning like the
source's `questionText != ""` guard. -/
def findQuestionRev : List Message → Option (Str × Option Int)
  | [] => none
  | m :: rest =>
    if m.type == "assistant" then
      match m.content.findSome? (fun c =>
        if c.type == "tool_use" && c.name == "AskUserQuestion" then c.input.question0
        else none) with
      | some q => if q.isEmpty then findQuestionRev rest else some (q, m.timestamp)
      | none => findQuestionRev rest
    else findQuestionRev rest

/-- `extractAskUserQuestion` of summary.go: the question text and whether
it lies within 60 s of the last assistant record. -/
def extractAskUserQuestion (messages : List Message) : Str × Bool :=
  match findQuestionRev messages.reverse with
  | none => ([], false)
  | some (q, ts) =>
    match ts, GetLastAssistantTimestamp messages with
    | some qt, some lt =>
      let age := lt - qt
      (q, decide (0 ≤ age ∧ age ≤ 60))
    | _, _ => (q, false)

/-- `extractExitPlanModePlan` of summary.go. -/
def extractExitPlanModePlan (messages : List Message) : Str :=
  match (ExtractToolInput messages "ExitPlanMode").plan with
  | some p => p
  | none => []

/-- `formatDuration` of summary.go (the duration is nonnegative whole
seconds by the caller's guard). -/
def formatDuration (d : Int) : Str :=
  let seconds := d.toNat
  if seconds < 60 then str "Took " ++ (Nat.repr seconds).data ++ str "s"
  else
    let minutes := seconds / 60
    let secs := seconds % 60
    if minutes < 60 then
      if secs > 0 then
        str "Took " ++ (Nat.repr minutes).data ++ str "m " ++ (Nat.repr secs).data ++ str "s"
      else str "Took " ++ (Nat.repr minutes).data ++ str "m"
    else
      let hours := minutes / 60
      let mins := minutes % 60
      if mins > 0 then
        str "Took " ++ (Nat.repr hours).data ++ str "h " ++ (Nat.repr mins).data ++ str "m"
      else str "Took " ++ (Nat.repr hours).data ++ str "h"

/-- `calculateDuration` of summary.go. -/
def calculateDuration (messages : List Message) : Str :=
  match GetLastUserTimestamp messages, GetLastAssistantTimestamp messages with
  | some ut, some at2 =>
    let duration := at2 - ut
    if duration < 0 then [] else formatDuration duration
  | _, _ => []

/-- One `counts[name]++` step on the Go map, as an association list. -/
def bumpCount : List (String × Nat) → String → List (String × Nat)
  | [], name => [(name, 1)]
  | (k, v) :: rest, name =>
    if k == name then (k, v + 1) :: rest else (k, v) :: bumpCount rest name

/-- Map lookup with zero default, as in `toolCounts["Write"]`. -/
def lookupCount (counts : List (String × Nat)) (name : String) : Nat :=
  match counts.find? (fun p => p.1 == name) with
  | some p => p.2
  | none => 0

/-- `countToolsByType` of summary.go: tool uses in assistant records not
strictly before the last user text timestamp (records with a missing or
unparseable timestamp are counted, matching the source's fallthrough). -/
def countToolsByType (messages : List Message) : List (String × Nat) :=
  let sinceOpt := GetLastUserTimestamp messages
  messages.foldl (fun counts m =>
    if m.type ≠ "assistant" then counts
    else if (match sinceOpt, m.timestamp with
             | some s, some t => decide (t < s)
             | _, _ => false) then counts
    else m.content.foldl (fun cs c =>
      if c.type == "tool_use" then bumpCount cs c.name else cs) counts) []

/-- `buildActionsString` of summary.go. -/
def buildActionsString (toolCounts : List (String × Nat)) (duration : Str) : Str :=
  let writeCount := lookupCount toolCounts "Write"
  let editCount := lookupCount toolCounts "Edit"
  let bashCount := lookupCount toolCounts "Bash"
  let parts :=
    (if writeCount > 0 then
      [str "Created " ++ (Nat.repr writeCount).data ++ str " " ++
        (if writeCount ≠ 1 then str "files" else str "file")] else []) ++
    (if editCount > 0 then
      [str "Edited " ++ (Nat.repr editCount).data ++ str " " ++
        (if editCount ≠ 1 then str "files" else str "file")] else []) ++
    (if bashCount > 0 then
      [str "Ran " ++ (Nat.repr bashCount).data ++ str " " ++
        (if bashCount ≠ 1 then str "commands" else str "command")] else []) ++
    (if duration.isEmpty then [] else [duration])
  if parts.isEmpty then [] else List.intercalate (str ". ") parts

/-- `StatusInfo` of config.go. -/
structure StatusInfo where
  title : Str
  sound : String := ""
  deriving DecidableEq, Repr

/-- The `statuses` table of `Config`, the only part of config.go the
summarizer reads. -/
structure Config where
  statuses : List (String × StatusInfo)
  deriving DecidableEq, Repr

/-- `Config.GetStatusInfo` of config.go. -/
def GetStatusInfo (cfg : Config) (status : String) : Option StatusInfo :=
  (cfg.statuses.find? (fun p => p.1 == status)).map (fun p => p.2)

/-- The `Statuses` entries of `DefaultConfig` in config.go. -/
def DefaultConfig : Config :=
  { statuses :=
      [("task_complete", { title := str "✅ Task Completed" }),
       ("review_complete", { title := str "🔍 Review Completed" }),
       ("question", { title := str "❓ Claude Has Questions" }),
       ("plan_ready", { title := str "📋 Plan Ready for Review" })] }

/-- The `\p{So}\p{Sk}` class of `emojiPattern`, restricted to the symbol
characters occurring in the status titles of this model. -/
def isSymbolEmoji (c : Char) : Bool :=
  c = '✅' ∨ c = '🔍' ∨ c = '❓' ∨ c = '📋' ∨ c = '⏱'

/-- `emojiPattern.ReplaceAllString(title, "")` for `^[\p{So}\p{Sk}]+\s*`. -/
def stripLeadingEmoji (title : Str) : Str :=
  match title with
  | c :: _ =>
    if isSymbolEmoji c then (title.dropWhile isSymbolEmoji).dropWhile isSpaceChar
    else title
  | [] => []

/-- `GetDefaultMessage` of summary.go. -/
def GetDefaultMessage (status : Status) (cfg : Config) : Str :=
  match GetStatusInfo cfg status with
  | none => str "Claude Code notification"
  | some statusInfo => trimSpace (stripLeadingEmoji statusInfo.title)

/-- `GenerateSimple` of summary.go. -/
def GenerateSimple (status : Status) (cfg : Config) : Str :=
  GetDefaultMessage status cfg

/-- `generateQuestionSummary` of summary.go. -/
def generateQuestionSummary (messages : List Message) (_cfg : Config) : Str :=
  let found := extractAskUserQuestion messages
  if !found.1.isEmpty && found.2 then truncateText found.1 150
  else
    let recentMessages := GetLastAssistantMessages messages 8
    let texts := ExtractTextFromMessages recentMessages
    match texts.reverse.find? (fun t => t.contains '?') with
    | some t => truncateText t 150
    | none => str "Claude needs your input to continue"

/-- `generatePlanSummary` of summary.go. -/
def generatePlanSummary (messages : List Message) (_cfg : Config) : Str :=
  let plan := extractExitPlanModePlan messages
  if !plan.isEmpty then
    let firstLine := ((splitLines plan).findSome? (fun line =>
      let cleaned := CleanMarkdown line
      if (trimSpace cleaned).isEmpty then none else some cleaned)).getD []
    if !firstLine.isEmpty then truncateText firstLine 150
    else str "Plan is ready for review"
  else str "Plan is ready for review"

/-- ASCII abstraction of `strings.ToLower`. -/
def toLowerStr (l : Str) : Str := l.map Char.toLower

/-- `strings.Contains(hay, needle)`. -/
def containsSub (hay needle : Str) : Bool :=
  match hay with
  | [] => needle.isEmpty
  | _ :: rest => needle.isPrefixOf hay || containsSub rest needle

/-- `generateReviewSummary` of summary.go. -/
def generateReviewSummary (messages : List Message) (_cfg : Config) : Str :=
  let recentMessages := GetLastAssistantMessages messages 5
  let texts := ExtractTextFromMessages recentMessages
  let combined := List.intercalate (str " ") texts
  let reviewKeywords :=
    [str "review", str "анализ", str "проверка", str "analyzed", str "analysis"]
  match reviewKeywords.findSome? (fun keyword =>
    if containsSub (toLowerStr combined) keyword then
      (texts.find? (fun t => containsSub (toLowerStr t) keyword)).map
        (fun t => truncateText t 150)
    else none) with
  | some r => r
  | none =>
    let tools := ExtractTools recentMessages
    let readCount := (tools.filter (fun t => t.name == "Read")).length
    if readCount > 0 then
      str "Reviewed " ++ (Nat.repr readCount).data ++ str " " ++
        (if readCount ≠ 1 then str "files" else str "file")
    else str "Code review completed"

/-- `generateTaskSummary` of summary.go. -/
def generateTaskSummary (messages : List Message) (cfg : Config) : Str :=
  let recentMessages := GetLastAssistantMessages messages 5
  if recentMessages.isEmpty then GetDefaultMessage StatusTaskComplete cfg
  else
    let texts := ExtractTextFromMessages recentMessages
    let lastMessage := (texts.getLast?).getD []
    let duration := calculateDuration messages
    let toolCounts := countToolsByType messages
    let actions := buildActionsString toolCounts duration
    if !lastMessage.isEmpty then
      let firstSentence := CleanMarkdown (extractFirstSentence lastMessage)
      if !actions.isEmpty then truncateText (firstSentence ++ str ". " ++ actions) 150
      else truncateText firstSentence 150
    else if !actions.isEmpty then actions
    else
      let toolCount := toolCounts.foldl (fun acc p => acc + p.2) 0
      if toolCount > 0 then
        str "Completed task with " ++ (Nat.repr toolCount).data ++ str " operations"
      else str "Task completed successfully"

/-- `GenerateFromTranscript` of summary.go, after `jsonl.ParseFile` (a
file that cannot be parsed yields the default message in the source; the
model takes the decoded records). -/
def GenerateFromTranscript (messages : List Message) (status : Status) (cfg : Config) : Str :=
  if messages.isEmpty then GetDefaultMessage status cfg
  else if status == StatusQuestion then generateQuestionSummary messages cfg
  else if status == StatusPlanReady then generatePlanSummary messages cfg
  else if status == StatusReviewComplete then generateReviewSummary messages cfg
  else generateTaskSummary messages cfg

/-! ## Claim C6 — synthesized message shape -/

/-- A transcript whose recent AskUserQuestion question text contains a
newline; the question path returns it verbatim. -/
def questionNewlineTranscript : List Message :=
  [{ type := "assistant", timestamp := some 100,
     content := [{ type := "tool_use", name := "AskUserQuestion",
                   input := { question0 := some (str "Pick one:\nA or B?") } }] }]

/-- A transcript whose only assistant text is `"."`; the task path
returns the empty string. -/
def dotOnlyTranscript : List Message :=
  [{ type := "assistant", content := [{ type := "text", text := str "." }] }]

/-- A 160-character text made of 5-character words, so that the 150-char
truncation cuts exactly at a word boundary. -/
def wordBoundaryText : Str := (List.replicate 32 (str "aaaa ")).flatten

/-- A configuration whose task_complete title is 160 characters long;
`Validate` of config.go imposes no length bound on titles, and
`GetDefaultMessage` returns the title untruncated. -/
def longTitleConfig : Config :=
  { statuses := [("task_complete", { title := List.replicate 160 'x' })] }

set_option maxRecDepth 40000 in
/-- Counterexample to C6: the synthesized message can contain a newline
(question path, recent AskUserQuestion with a newline in its question
text), can be empty (task path whose cleaned first sentence and action
summary are both empty), gains the `...` suffix even when the truncation
falls on a word boundary (the dropped remainder starts with a space) and
not only mid-word, and can exceed 150 characters (the status-title
fallback returns the configured title without truncation). -/
theorem claim6_counterexample :
    ((GenerateFromTranscript questionNewlineTranscript StatusQuestion DefaultConfig).contains
      '\n' = true) ∧
    (GenerateFromTranscript dotOnlyTranscript StatusTaskComplete DefaultConfig = []) ∧
    (truncateText wordBoundaryText 150 = wordBoundaryText.take 144 ++ str "...") ∧
    ((wordBoundaryText.drop 144).head? = some ' ') ∧
    (150 < (GenerateFromTranscript [] StatusTaskComplete longTitleConfig).length) := by
  refine ⟨by decide, by decide, by decide, by decide, by decide⟩

theorem truncateText_short (s : Str) (h : s.length ≤ 150) : truncateText s 150 = s := by
  simp [truncateText, h]

theorem truncateText_long (s : Str) (h : 150 < s.length) :
    (truncateText s 150).length ≤ 150 ∧ ∃ kept : Str, truncateText s 150 = kept ++ str "..." := by
  have hnot : ¬ s.length ≤ 150 := by omega
  simp only [truncateText, if_neg hnot]
  have htlen : (s.take (150 - 3)).length ≤ 147 := by
    simp [List.length_take_le]
  cases hl : lastIndexOfSpace (s.take (150 - 3)) with
  | none =>
    dsimp only
    refine ⟨?_, ⟨s.take (150 - 3), rfl⟩⟩
    simp only [List.length_append]
    have : (str "...").length = 3 := rfl
    omega
  | some i =>
    dsimp only
    by_cases hi : 150 / 2 < i
    · rw [if_pos hi]
      refine ⟨?_, ⟨(s.take (150 - 3)).take i, rfl⟩⟩
      simp only [List.length_append]
      have h2 : ((s.take (150 - 3)).take i).length ≤ (s.take (150 - 3)).length :=
        List.length_take_le' ..
      have : (str "...").length = 3 := rfl
      omega
    · rw [if_neg hi]
      refine ⟨?_, ⟨s.take (150 - 3), rfl⟩⟩
      simp only [List.length_append]
      have : (str "...").length = 3 := rfl
      omega

theorem truncateText_le (s : Str) : (truncateText s 150).length ≤ 150 := by
  by_cases h : s.length ≤ 150
  · rw [truncateText_short s h]; exact h
  · exact (truncateText_long s (by omega)).1

theorem questionSummary_le (messages : List Message) (cfg : Config) :
    (generateQuestionSummary messages cfg).length ≤ 150 := by
  unfold generateQuestionSummary
  dsimp only
  split
  · exact truncateText_le _
  · split
    · exact truncateText_le _
    · decide

theorem planSummary_le (messages : List Message) (cfg : Config) :
    (generatePlanSummary messages cfg).length ≤ 150 := by
  unfold generatePlanSummary
  dsimp only
  split
  · split
    · exact truncateText_le _
    · decide
  · decide

theorem reviewSummary_cases (messages : List Message) (cfg : Config) :
    (generateReviewSummary messages cfg).length ≤ 150 ∨
    ∃ n : Nat, generateReviewSummary messages cfg =
      str "Reviewed " ++ (Nat.repr n).data ++ str " " ++
        (if n ≠ 1 then str "files" else str "file") := by
  unfold generateReviewSummary
  dsimp only
  split
  · rename_i r heq
    left
    obtain ⟨kw, -, hkw⟩ := List.exists_of_findSome?_eq_some heq
    split at hkw
    · obtain ⟨t, -, rfl⟩ := Option.map_eq_some'.mp hkw
      exact truncateText_le _
    · exact absurd hkw (by simp)
  · split
    · right; exact ⟨_, rfl⟩
    · left; decide

theorem taskSummary_cases (messages : List Message) (cfg : Config) :
    (generateTaskSummary messages cfg).length ≤ 150 ∨
    generateTaskSummary messages cfg = GetDefaultMessage StatusTaskComplete cfg ∨
    generateTaskSummary messages cfg =
      buildActionsString (countToolsByType messages) (calculateDuration messages) ∨
    ∃ n : Nat, generateTaskSummary messages cfg =
      str "Completed task with " ++ (Nat.repr n).data ++ str " operations" := by
  unfold generateTaskSummary
  dsimp only
  split
  · right; left; rfl
  · split
    · split
      · left; exact truncateText_le _
      · left; exact truncateText_le _
    · split
      · right; right; left; rfl
      · split
        · right; right; right; exact ⟨_, rfl⟩
        · left; decide

/-- Claim C6 as amended: for every transcript, status and configuration,
the synthesized message is at most 150 characters unless it is one of
the untruncated fallbacks the source returns verbatim — a configured
status title (the concretely refuted case), the review Read-count
string, the task action summary, or the task operation-count string
(the count-bearing fallbacks exceed 150 characters only when the decimal
digit counts of the tool counters are enormous); the truncation helper
itself returns texts of at most 150 characters unchanged and otherwise
cuts to at most 150 characters appending `...` whenever truncation
occurred, at word boundaries as well as mid-word; the message is not
guaranteed newline-free and not guaranteed non-empty, as the
counterexample shows. -/
theorem claim6_amended_synthesis (messages : List Message) (status : Status) (cfg : Config)
    (s : Str) :
    ((GenerateFromTranscript messages status cfg).length ≤ 150 ∨
     (∃ st : Status, GenerateFromTranscript messages status cfg = GetDefaultMessage st cfg) ∨
     (∃ n : Nat, GenerateFromTranscript messages status cfg =
        str "Reviewed " ++ (Nat.repr n).data ++ str " " ++
          (if n ≠ 1 then str "files" else str "file")) ∨
     GenerateFromTranscript messages status cfg =
       buildActionsString (countToolsByType messages) (calculateDuration messages) ∨
     (∃ n : Nat, GenerateFromTranscript messages status cfg =
        str "Completed task with " ++ (Nat.repr n).data ++ str " operations")) ∧
    (s.length ≤ 150 → truncateText s 150 = s) ∧
    (150 < s.length →
      (truncateText s 150).length ≤ 150 ∧
      ∃ kept : Str, truncateText s 150 = kept ++ str "...") := by
  refine ⟨?_, truncateText_short s, truncateText_long s⟩
  unfold GenerateFromTranscript
  split
  · right; left; exact ⟨status, rfl⟩
  · split
    · left; exact questionSummary_le messages cfg
    · split
      · left; exact planSummary_le messages cfg
      · split
        · rcases reviewSummary_cases messages cfg with h | h
          · left; exact h
          · right; right; left; exact h
        · rcases taskSummary_cases messages cfg with h | h | h | h
          · left; exact h
          · right; left; exact ⟨StatusTaskComplete, h⟩
          · right; right; right; left; exact h
          · right; right; right; right; exact h

set_option maxRecDepth 40000 in
/-- Witness for the amended C6: a short text passes through the
truncation helper unchanged, and a long text is cut to the bound. -/
theorem claim6_amended_synthesis_witness :
    truncateText (str "All done") 150 = str "All done" ∧
    (truncateText wordBoundaryText 150).length ≤ 150 := by
  constructor
  · exact (claim6_amended_synthesis [] StatusQuestion DefaultConfig (str "All done")).2.1
      (by decide)
  · exact ((claim6_amended_synthesis [] StatusQuestion DefaultConfig wordBoundaryText).2.2
      (by decide)).1

/-! ## Hook dispatcher (src/internal/hooks/hooks.go, `HandleHook`)

The dispatcher is embedded as a trace semantics: one invocation produces
the ordered list of state-manager / dedup / delivery operations it
performs.  The filesystem-backed answers the invocation observes (early
duplicate, lock acquisition, the two suppression queries) are inputs of
the environment; a suppression query of `none` stands for the error case,
which the source logs and treats as "not suppressed". -/

/-- One observable operation of a dispatcher invocation. -/
inductive Event where
  | earlyDupCheck (r : Bool)
  | enabledCheck (r : Bool)
  | updateInteractiveTool (tool : String)
  | lockAttempt (r : Bool)
  | loadStateForLog
  | suppressAnyCheck (r : Option Bool)
  | suppressTaskCheck (r : Option Bool)
  | updateTaskComplete
  | updateLastNotification (status : String)
  | sendNotification (status : String)
  | cleanupLocks
  deriving DecidableEq, Repr

/-- The per-invocation environment of `HandleHook`. -/
structure HookEnv where
  hookEvent : String
  toolName : String
  transcript : Option (List Message)
  earlyDup : Bool
  anyEnabled : Bool
  lockAcquired : Bool
  suppressAny : Option Bool
  suppressTask : Option Bool
  deriving DecidableEq, Repr

/-- The `switch hookEvent` of `HandleHook`: the computed status together
with the state writes performed while computing it (`handlePreToolUse`
writes the interactive tool for plan_ready/question); `none` is the
unknown-hook-event error return.  For Stop/SubagentStop a missing or
unreadable transcript yields `unknown` (`handleStopEvent`), and
`handleNotificationEvent` always yields `question`. -/
def statusAndEvents (env : HookEnv) : Option (Status × List Event) :=
  if env.hookEvent == "PreToolUse" then
    let status := GetStatusForPreToolUse env.toolName
    some (status,
      if status == StatusPlanReady || status == StatusQuestion then
        [.updateInteractiveTool env.toolName]
      else [])
  else if env.hookEvent == "Notification" then
    some (StatusQuestion, [])
  else if env.hookEvent == "Stop" || env.hookEvent == "SubagentStop" then
    some (match env.transcript with
          | none => StatusUnknown
          | some messages => AnalyzeTranscript messages, [])
  else none

/-- The computed status of an invocation. -/
def computeStatus (env : HookEnv) : Option Status :=
  (statusAndEvents env).map (fun p => p.1)

/-- The steps of `HandleHook` after the lock has been acquired: question
cooldown checks, state updates, message build and delivery. -/
def afterLockEvents (env : HookEnv) (status : Status) : List Event :=
  if status == StatusQuestion then
    .loadStateForLog :: .suppressAnyCheck env.suppressAny ::
    (if env.suppressAny = some true then []
     else .suppressTaskCheck env.suppressTask ::
       (if env.suppressTask = some true then []
        else [.updateLastNotification status, .sendNotification status]))
  else
    (if status == StatusTaskComplete then [.updateTaskComplete] else []) ++
    [.updateLastNotification status, .sendNotification status]

/-- `HandleHook` of hooks.go as a trace: early duplicate check, enabled
check, status computation, unknown short-circuit, phase-2 lock, cooldown
checks (question only), state updates, delivery; the deferred lock/state
cleanup of the Stop/SubagentStop branch runs at every exit reached after
its registration. -/
def HandleHook (env : HookEnv) : List Event :=
  if env.earlyDup then [.earlyDupCheck true]
  else if !env.anyEnabled then [.earlyDupCheck false, .enabledCheck false]
  else
    match statusAndEvents env with
    | none => [.earlyDupCheck false, .enabledCheck true]
    | some (status, statusEvents) =>
      let isStop := env.hookEvent == "Stop" || env.hookEvent == "SubagentStop"
      let body :=
        if status == StatusUnknown then []
        else
          .lockAttempt env.lockAcquired ::
          (if !env.lockAcquired then [] else afterLockEvents env status)
      [.earlyDupCheck false, .enabledCheck true] ++ statusEvents ++ body ++
        (if isStop then [.cleanupLocks] else [])

/-- Event-kind tests used by the ordering statements. -/
def isUpdateLastNotif : Event → Bool
  | .updateLastNotification _ => true
  | _ => false

def isSuppressAnyEv : Event → Bool
  | .suppressAnyCheck _ => true
  | _ => false

def isSuppressTaskEv : Event → Bool
  | .suppressTaskCheck _ => true
  | _ => false

theorem statusAndEvents_shape (env : HookEnv) (st : Status) (sev : List Event)
    (h : statusAndEvents env = some (st, sev)) :
    sev = [] ∨ ∃ t, sev = [Event.updateInteractiveTool t] := by
  unfold statusAndEvents at h
  split at h
  · simp only [Option.some.injEq, Prod.mk.injEq] at h
    rcases h with ⟨-, hsev⟩
    split at hsev
    · right; exact ⟨env.toolName, hsev.symm⟩
    · left; exact hsev.symm
  · split at h
    · simp only [Option.some.injEq, Prod.mk.injEq] at h
      left; exact h.2.symm
    · split at h
      · simp only [Option.some.injEq, Prod.mk.injEq] at h
        left; exact h.2.symm
      · simp at h

theorem handleHook_question_trace (env : HookEnv) (sev : List Event)
    (hsev : statusAndEvents env = some (StatusQuestion, sev)) :
    HandleHook env =
      if env.earlyDup then [.earlyDupCheck true]
      else if !env.anyEnabled then [.earlyDupCheck false, .enabledCheck false]
      else
        [.earlyDupCheck false, .enabledCheck true] ++ sev ++
        (Event.lockAttempt env.lockAcquired ::
          (if !env.lockAcquired then [] else
            Event.loadStateForLog :: Event.suppressAnyCheck env.suppressAny ::
            (if env.suppressAny = some true then []
             else Event.suppressTaskCheck env.suppressTask ::
               (if env.suppressTask = some true then []
                else [Event.updateLastNotification StatusQuestion,
                      Event.sendNotification StatusQuestion])))) ++
        (if (env.hookEvent == "Stop" || env.hookEvent == "SubagentStop") = true
         then [Event.cleanupLocks] else []) := by
  unfold HandleHook
  rw [hsev]
  dsimp only
  rw [if_neg (by decide : ¬ ((StatusQuestion == StatusUnknown) = true))]
  simp only [afterLockEvents]
  rw [if_pos (by decide : (StatusQuestion == StatusQuestion) = true)]

set_option maxHeartbeats 2000000 in
/-- Claim C9: on a question-status invocation, both cooldown suppression
checks appear strictly before any `update_last_notification` event in the
dispatcher's trace, and a positive answer from either check means the
update is never performed — so the write of the current invocation can
never suppress that same invocation. -/
theorem claim9_no_self_suppression (env : HookEnv)
    (hq : computeStatus env = some StatusQuestion) :
    (env.suppressAny = some true →
      ∀ st, Event.updateLastNotification st ∉ HandleHook env) ∧
    (env.suppressTask = some true →
      ∀ st, Event.updateLastNotification st ∉ HandleHook env) ∧
    (∀ n, (HandleHook env).findIdx? isUpdateLastNotif = some n →
      (∃ a, (HandleHook env).findIdx? isSuppressAnyEv = some a ∧ a < n) ∧
      (∃ b, (HandleHook env).findIdx? isSuppressTaskEv = some b ∧ b < n)) := by
  obtain ⟨p, hsev, hst⟩ : ∃ p, statusAndEvents env = some p ∧ p.1 = StatusQuestion := by
    cases h : statusAndEvents env with
    | none => simp [computeStatus, h] at hq
    | some p => exact ⟨p, rfl, by simpa [computeStatus, h] using hq⟩
  obtain ⟨st, sev⟩ := p
  simp only at hst
  subst hst
  have hshape := statusAndEvents_shape env _ _ hsev
  have htr := handleHook_question_trace env sev hsev
  refine ⟨?_, ?_, ?_⟩
  · intro ha st
    rw [htr]
    rcases hshape with rfl | ⟨t, rfl⟩ <;>
      by_cases hd : env.earlyDup <;>
      by_cases he : env.anyEnabled <;>
      by_cases hl : env.lockAcquired <;>
      by_cases hs : (env.hookEvent == "Stop" || env.hookEvent == "SubagentStop") = true <;>
      simp [hd, he, hl, hs, ha]
  · intro htk st
    rw [htr]
    rcases hshape with rfl | ⟨t, rfl⟩ <;>
      by_cases hd : env.earlyDup <;>
      by_cases he : env.anyEnabled <;>
      by_cases hl : env.lockAcquired <;>
      by_cases ha : env.suppressAny = some true <;>
      by_cases hs : (env.hookEvent == "Stop" || env.hookEvent == "SubagentStop") = true <;>
      simp [hd, he, hl, hs, ha, htk]
  · intro n hn
    rw [htr] at hn ⊢
    rcases hshape with rfl | ⟨t, rfl⟩ <;>
      by_cases hd : env.earlyDup <;>
      by_cases he : env.anyEnabled <;>
      by_cases hl : env.lockAcquired <;>
      by_cases ha : env.suppressAny = some true <;>
      by_cases htk : env.suppressTask = some true <;>
      by_cases hs : (env.hookEvent == "Stop" || env.hookEvent == "SubagentStop") = true <;>
      simp_all [isUpdateLastNotif, isSuppressAnyEv, isSuppressTaskEv] <;>
      omega

/-- Claim C9 witness: a concrete Notification invocation with both
suppression answers negative; both checks sit strictly before the
notification-time update in the produced trace. -/
def questionEnv : HookEnv :=
  { hookEvent := "Notification", toolName := "", transcript := none,
    earlyDup := false, anyEnabled := true, lockAcquired := true,
    suppressAny := some false, suppressTask := some false }

theorem claim9_no_self_suppression_witness :
    (∃ a, (HandleHook questionEnv).findIdx? isSuppressAnyEv = some a ∧ a < 6) ∧
    (∃ b, (HandleHook questionEnv).findIdx? isSuppressTaskEv = some b ∧ b < 6) :=
  (claim9_no_self_suppression questionEnv (by decide)).2.2 6 (by decide)

/-! ## Claim C10 — review_complete is never produced -/

theorem analyzeTranscript_ne_review (messages : List Message) :
    AnalyzeTranscript messages ≠ StatusReviewComplete := by
  rw [analyzeTranscript_characterization messages]
  split
  · split
    · decide
    · split <;> decide
  · decide

theorem preToolUse_ne_review (toolName : String) :
    GetStatusForPreToolUse toolName ≠ StatusReviewComplete := by
  unfold GetStatusForPreToolUse
  split
  · decide
  · split <;> decide

theorem computeStatus_ne_review (env : HookEnv) :
    computeStatus env ≠ some StatusReviewComplete := by
  unfold computeStatus statusAndEvents
  split
  · intro h
    simp only [Option.map_some', Option.some.injEq] at h
    exact preToolUse_ne_review env.toolName h
  · split
    · intro h
      simp only [Option.map_some', Option.some.injEq] at h
      exact absurd h (by decide)
    · split
      · intro h
        simp only [Option.map_some', Option.some.injEq] at h
        cases ht : env.transcript with
        | none => rw [ht] at h; exact absurd h (by decide)
        | some messages => rw [ht] at h; exact analyzeTranscript_ne_review messages h
      · simp

set_option maxHeartbeats 2000000 in
theorem send_implies_computed (env : HookEnv) (st : Status)
    (hmem : Event.sendNotification st ∈ HandleHook env) :
    computeStatus env = some st := by
  unfold HandleHook at hmem
  by_cases hd : env.earlyDup
  · simp [hd] at hmem
  · by_cases he : env.anyEnabled
    · cases h : statusAndEvents env with
      | none =>
        rw [h] at hmem
        simp [hd, he] at hmem
      | some p =>
        obtain ⟨status, sev⟩ := p
        rw [h] at hmem
        dsimp only at hmem
        have hsh := statusAndEvents_shape env _ _ h
        rcases hsh with rfl | ⟨t, rfl⟩ <;>
          by_cases hu : (status == StatusUnknown) = true <;>
          by_cases hqe : (status == StatusQuestion) = true <;>
          by_cases htc : (status == StatusTaskComplete) = true <;>
          by_cases hl : env.lockAcquired <;>
          by_cases ha : env.suppressAny = some true <;>
          by_cases htk : env.suppressTask = some true <;>
          by_cases hs : (env.hookEvent == "Stop" || env.hookEvent == "SubagentStop") = true <;>
          simp_all [afterLockEvents, computeStatus]
    · simp [hd, he] at hmem

/-- Claim C10: the dispatcher never computes `review_complete` —
transcript classification yields only plan_ready, question,
task_complete or unknown, pre-tool classification yields only
plan_ready, question or unknown, and consequently no invocation ever
delivers a review_complete notification. -/
theorem claim10_never_review_complete (env : HookEnv) (messages : List Message)
    (toolName : String) :
    (AnalyzeTranscript messages = StatusTaskComplete ∨
     AnalyzeTranscript messages = StatusPlanReady ∨
     AnalyzeTranscript messages = StatusQuestion ∨
     AnalyzeTranscript messages = StatusUnknown) ∧
    (GetStatusForPreToolUse toolName = StatusPlanReady ∨
     GetStatusForPreToolUse toolName = StatusQuestion ∨
     GetStatusForPreToolUse toolName = StatusUnknown) ∧
    (computeStatus env ≠ some StatusReviewComplete) ∧
    (∀ st, Event.sendNotification st ∈ HandleHook env → st ≠ StatusReviewComplete) := by
  refine ⟨?_, ?_, computeStatus_ne_review env, ?_⟩
  · rw [analyzeTranscript_characterization messages]
    split
    · split
      · right; left; rfl
      · split
        · right; right; left; rfl
        · left; rfl
    · right; right; right; rfl
  · unfold GetStatusForPreToolUse
    split
    · left; rfl
    · split
      · right; left; rfl
      · right; right; rfl
  · intro st hmem hrev
    subst hrev
    exact computeStatus_ne_review env (send_implies_computed env _ hmem)

/-- Claim C10 witness: a concrete Stop invocation whose transcript
classifies to task_complete delivers task_complete, which is not
review_complete. -/
theorem claim10_never_review_complete_witness :
    AnalyzeTranscript
      [{ type := "assistant", timestamp := some 3,
         content := [{ type := "tool_use", name := "Write" }] }] = StatusTaskComplete ∧
    StatusQuestion ≠ StatusReviewComplete := by
  constructor
  · decide
  · exact (claim10_never_review_complete questionEnv [] "").2.2.2 StatusQuestion
      (by decide)
